import Mathlib

/-!
Shallow embedding of the query service of the realtime farming dashboard
(src/main.py): the three authenticated read endpoints over the readings
collection — api_sensors (distinct dimension listing), api_summary
(latest reading per (sensor, location) group plus 24-hour statistics) and
api_timeseries (windowed series for one sensor) — together with their
request validation, integer-parameter parsing and store-error branches.

Modelling conventions:
- a stored document is a `Reading`; the collection is a `List Reading`
  (order = the unspecified but fixed iteration order of the store, which
  also fixes the behaviour of sorts on equal keys via stable sorting);
- timestamps are integers counting seconds, so "24 hours" is `24 * 3600`;
- MongoDB sorts are modelled by the stable `List.insertionSort` over an
  explicit sort key; a missing `location` sorts before every string, as
  BSON null/missing does;
- string comparison is code-point lexicographic, as in both Python and
  BSON, modelled on `String.data : List Char`;
- the store is passed to a handler as `Except String (List Reading)`:
  `.error e` is a store failure whose exception text is `e` (the `str(e)`
  of the caught PyMongoError); a handler additionally reports whether it
  consulted the store at all.
-/

namespace RealtimeFarming

/-- One sensor observation, as documented in api_summary's docstring:
sensor (required string), value (required number), optional unit,
required timestamp, optional location. -/
structure Reading where
  sensor : String
  value : ℚ
  unit : Option String := none
  timestamp : ℤ
  location : Option String := none
deriving DecidableEq

/-- One row of the stats_24h view: per-sensor count, min, max and average
of value over the last 24 hours. -/
structure SensorStats where
  sensor : String
  count : ℕ
  min : ℚ
  max : ℚ
  avg : ℚ
deriving DecidableEq

/-- Outcome of one endpoint call.  `ok` is the JSON payload of a 200
response, `validationError` a 400 from parameter validation,
`storeError e` the 500 built from a caught PyMongoError whose str() is
`e`, and `pyException` an exception raised outside the try/except (the
int() conversions), which escapes the handler unhandled. -/
inductive Resp (α : Type) where
  | ok (payload : α)
  | validationError (msg : String)
  | storeError (msg : String)
  | pyException
deriving DecidableEq

/-- Query parameters of a GET /api/timeseries request; `none` means the
parameter is absent from the query string. -/
structure TsRequest where
  sensor : Option String := none
  hours : Option String := none
  limit : Option String := none
  location : Option String := none
deriving DecidableEq

/-! ### String and sort-key orders -/

/-- Code-point lexicographic order on strings (the order used by both
Python's sorted() and BSON string comparison), stated on the underlying
character lists so that it evaluates inside the kernel. -/
def strLe (a b : String) : Prop := a.data ≤ b.data

/-- Strict code-point lexicographic order on strings. -/
def strLt (a b : String) : Prop := a.data < b.data

instance : DecidableRel strLe := fun a b => inferInstanceAs (Decidable (a.data ≤ b.data))

instance : DecidableRel strLt := fun a b => inferInstanceAs (Decidable (a.data < b.data))

instance : IsTotal String strLe := ⟨fun a b => le_total a.data b.data⟩

instance : IsTrans String strLe := ⟨fun _ _ _ h1 h2 => le_trans h1 h2⟩

instance : IsAntisymm String strLe :=
  ⟨fun a b h1 h2 => by
    cases a
    cases b
    cases le_antisymm h1 h2
    rfl⟩

/-- Location component of the sort key of the latest-per-group pipeline:
BSON sorts a missing field before every string value. -/
def locKey : Option String → WithBot (List Char)
  | none => ⊥
  | some s => (s.data : WithBot (List Char))

/-- Sort key of the first stage of the latest-per-group pipeline,
sort: sensor ascending, location ascending, timestamp descending
(descending timestamp is ascending negated timestamp). -/
def summaryKey (r : Reading) : (List Char) ×ₗ ((WithBot (List Char)) ×ₗ ℤ) :=
  toLex (r.sensor.data, toLex (locKey r.location, -r.timestamp))

/-- Document order produced by the $sort stage of the latest-per-group
pipeline of api_summary. -/
def summaryLe (a b : Reading) : Prop := summaryKey a ≤ summaryKey b

instance : DecidableRel summaryLe := fun a b =>
  inferInstanceAs (Decidable (summaryKey a ≤ summaryKey b))

instance : IsTotal Reading summaryLe := ⟨fun a b => le_total (summaryKey a) (summaryKey b)⟩

instance : IsTrans Reading summaryLe := ⟨fun _ _ _ h1 h2 => le_trans h1 h2⟩

/-- Ascending-timestamp order used by the final Python re-sort of
api_timeseries. -/
def tsAscLe (a b : Reading) : Prop := a.timestamp ≤ b.timestamp

/-- Descending-timestamp order used by the MongoDB sort of
api_timeseries. -/
def tsDescLe (a b : Reading) : Prop := b.timestamp ≤ a.timestamp

instance : DecidableRel tsAscLe := fun a b =>
  inferInstanceAs (Decidable (a.timestamp ≤ b.timestamp))

instance : DecidableRel tsDescLe := fun a b =>
  inferInstanceAs (Decidable (b.timestamp ≤ a.timestamp))

instance : IsTotal Reading tsAscLe := ⟨fun a b => le_total a.timestamp b.timestamp⟩

instance : IsTrans Reading tsAscLe := ⟨fun _ _ _ h1 h2 => le_trans h1 h2⟩

instance : IsTotal Reading tsDescLe := ⟨fun a b => le_total b.timestamp a.timestamp⟩

instance : IsTrans Reading tsDescLe := ⟨fun _ _ _ h1 h2 => le_trans h2 h1⟩

/-! ### GET /api/sensors -/

/-- Body of api_sensors: the distinct sensor values, sorted, and the
distinct truthy (non-empty) location values, sorted.  MongoDB distinct
yields each occurring value once (missing locations contribute nothing);
the list comprehension filter drops empty strings. -/
def api_sensors (store : List Reading) : List String × List String :=
  (List.insertionSort strLe ((store.map Reading.sensor).dedup),
   List.insertionSort strLe
     (((store.filterMap Reading.location).dedup).filter (fun l => decide (l ≠ ""))))

/-! ### GET /api/summary -/

/-- Grouping key of the latest-per-group pipeline: $ifNull folds a
missing location into the sentinel string "__none__". -/
def groupKey (r : Reading) : String × String := (r.sensor, r.location.getD "__none__")

/-- Document order after the $sort stage of the latest pipeline. -/
def sortedForLatest (store : List Reading) : List Reading :=
  List.insertionSort summaryLe store

/-- Latest-per-group view of api_summary: after sorting, $group keeps,
for every distinct grouping key, the $first document encountered, and
$replaceRoot/$project return that document itself. -/
def latestPerGroup (store : List Reading) : List Reading :=
  let L := sortedForLatest store
  ((L.map groupKey).dedup).filterMap (fun k => L.find? (fun r => decide (groupKey r = k)))

/-- The MongoDB contract for the $sort stage of the latest-per-group
pipeline: the server may present any permutation of the collection that
is consistent with the (non-unique) sort key; the relative order of
documents that tie on the whole key is unspecified and may differ
between executions.  A cursor order is valid when it is such a
permutation. -/
def ValidSummaryCursor (store L : List Reading) : Prop :=
  L.Perm store ∧ List.Pairwise summaryLe L

/-- Latest-per-group view computed from one concrete cursor order the
server presented: $group keeps the $first document per distinct key in
that order (same grouping as `latestPerGroup`, which fixes one
particular valid cursor). -/
def latestFromCursor (L : List Reading) : List Reading :=
  ((L.map groupKey).dedup).filterMap (fun k => L.find? (fun r => decide (groupKey r = k)))

/-- The dimension listing computed from the value sequences the two
distinct() calls return; MongoDB leaves the order of distinct values
unspecified, so it is a parameter here (api_sensors fixes one
particular enumeration). -/
def sensorsFromDistinct (sensors locations : List String) : List String × List String :=
  (List.insertionSort strLe sensors,
   List.insertionSort strLe (locations.filter (fun l => decide (l ≠ ""))))

/-- The $match window of the stats pipeline: timestamp at least
now minus 24 hours. -/
def inWindow (now : ℤ) (r : Reading) : Bool := decide (now - 24 * 3600 ≤ r.timestamp)

/-- Minimum of a value list ($min); 0 is never reached because every
group is non-empty. -/
def listMin : List ℚ → ℚ
  | [] => 0
  | v :: vs => vs.foldl min v

/-- Maximum of a value list ($max); 0 is never reached because every
group is non-empty. -/
def listMax : List ℚ → ℚ
  | [] => 0
  | v :: vs => vs.foldl max v

/-- The stats row built by the $group stage for one sensor out of the
window-matched documents: count, min, max and average of value. -/
def sensorStatsFor (matched : List Reading) (s : String) : SensorStats :=
  let vals := (matched.filter (fun r => decide (r.sensor = s))).map Reading.value
  { sensor := s
    count := vals.length
    min := listMin vals
    max := listMax vals
    avg := vals.sum / (vals.length : ℚ) }

/-- The stats_24h pipeline of api_summary: restrict to the 24-hour
window, then one aggregate row per distinct sensor occurring there. -/
def stats_24h (store : List Reading) (now : ℤ) : List SensorStats :=
  let matched := store.filter (inWindow now)
  ((matched.map Reading.sensor).dedup).map (sensorStatsFor matched)

/-- Payload of a successful api_summary call: the latest-per-group view
and the 24-hour statistics. -/
def api_summary (store : List Reading) (now : ℤ) : List Reading × List SensorStats :=
  (latestPerGroup store, stats_24h store now)

/-! ### GET /api/timeseries -/

/-- Lower bound of the series window: now minus `hours` hours. -/
def tsSince (now hours : ℤ) : ℤ := now - hours * 3600

/-- The find() query document of api_timeseries: sensor equality,
timestamp at least `since`, and, when a location clause is present,
location equality (a document with no location field never matches an
equality clause on it). -/
def tsMatch (sensor : String) (since : ℤ) (loc : Option String) (r : Reading) : Bool :=
  decide (r.sensor = sensor) && decide (since ≤ r.timestamp) &&
    (match loc with
     | none => true
     | some l => decide (r.location = some l))

/-- Documents matching the find() query of api_timeseries. -/
def tsMatched (store : List Reading) (sensor : String) (hours : ℤ) (loc : Option String)
    (now : ℤ) : List Reading :=
  store.filter (tsMatch sensor (tsSince now hours) loc)

/-- Matching documents in the descending-timestamp cursor order. -/
def tsDescSorted (store : List Reading) (sensor : String) (hours : ℤ) (loc : Option String)
    (now : ℤ) : List Reading :=
  List.insertionSort tsDescLe (tsMatched store sensor hours loc now)

/-- Cursor limit(n) semantics: 0 means no limit, and a negative n
behaves like its absolute value (single-batch limit). -/
def applyLimit (lim : ℤ) (l : List Reading) : List Reading :=
  if lim = 0 then l else l.take lim.natAbs

/-- Result list of the try-block of api_timeseries: query, sort
descending, limit, then re-sort ascending in Python for charting. -/
def timeseriesQuery (store : List Reading) (sensor : String) (hours lim : ℤ)
    (loc : Option String) (now : ℤ) : List Reading :=
  List.insertionSort tsAscLe (applyLimit lim (tsDescSorted store sensor hours loc now))

/-! ### Request handling of api_timeseries -/

/-- Characters Python's int() strips around a numeric literal
(space, tab, newline, carriage return, vertical tab, form feed). -/
def isSpaceChar (c : Char) : Bool :=
  c.toNat = 32 || c.toNat = 9 || c.toNat = 10 || c.toNat = 13 || c.toNat = 11 || c.toNat = 12

/-- Digit test on code points (48 to 57 are the decimal digits). -/
def isDigitChar (c : Char) : Bool := decide (48 ≤ c.toNat) && decide (c.toNat ≤ 57)

/-- Decimal value of a digit string, accumulator style. -/
def digitsToNat (acc : ℕ) : List Char → ℕ
  | [] => acc
  | c :: cs => digitsToNat (acc * 10 + (c.toNat - 48)) cs

/-- Parse of a non-empty all-digit character list. -/
def parseDigits (cs : List Char) : Option ℕ :=
  if cs.isEmpty then none
  else if cs.all isDigitChar then some (digitsToNat 0 cs) else none

/-- Model of Python's int() applied to a query-string value: optional
surrounding whitespace, optional single sign, then decimal digits;
anything else raises ValueError, modelled as `none` (digit-group
underscores are not modelled). -/
def pyInt (s : String) : Option ℤ :=
  match (s.data.dropWhile isSpaceChar).reverse.dropWhile isSpaceChar |>.reverse with
  | [] => none
  | c :: cs =>
    if c.toNat = 45 then (parseDigits cs).map (fun n => -(n : ℤ))
    else if c.toNat = 43 then (parseDigits cs).map (fun n => (n : ℤ))
    else (parseDigits (c :: cs)).map (fun n => (n : ℤ))

/-- Value of int(request.args.get("hours", 24)): the default 24 is
already an integer, a supplied string goes through int(). -/
def parsedHours (req : TsRequest) : Option ℤ :=
  match req.hours with
  | none => some 24
  | some hs => pyInt hs

/-- Value of int(request.args.get("limit", 1000)). -/
def parsedLimit (req : TsRequest) : Option ℤ :=
  match req.limit with
  | none => some 1000
  | some ls => pyInt ls

/-- The location filter the handler adds to the query: only a truthy
(present and non-empty) location parameter adds a clause. -/
def reqLocation (req : TsRequest) : Option String :=
  match req.location with
  | none => none
  | some l => if l = "" then none else some l

/-- Handler of GET /api/timeseries, following the source order: missing
or empty sensor fails validation before anything else; the int()
conversions of hours and limit run next, outside the try/except, so
their failure escapes as an unhandled exception; only then is the store
consulted, and a store failure is answered with the exception text.
The boolean records whether the store was consulted. -/
def api_timeseries (req : TsRequest) (st : Except String (List Reading)) (now : ℤ) :
    Resp (List Reading) × Bool :=
  match req.sensor with
  | none => (.validationError "Missing required parameter: sensor", false)
  | some s =>
    if s = "" then (.validationError "Missing required parameter: sensor", false)
    else
      match parsedHours req, parsedLimit req with
      | some hours, some lim =>
        (match st with
         | .error e => (.storeError e, true)
         | .ok docs => (.ok (timeseriesQuery docs s hours lim (reqLocation req) now), true))
      | _, _ => (.pyException, false)

/-- Handler of GET /api/sensors: store failure is answered with the
exception text, otherwise the dimension listing is returned. -/
def api_sensors_handler (st : Except String (List Reading)) :
    Resp (List String × List String) :=
  match st with
  | .error e => .storeError e
  | .ok docs => .ok (api_sensors docs)

/-- Handler of GET /api/summary: store failure is answered with the
exception text, otherwise both views are returned. -/
def api_summary_handler (st : Except String (List Reading)) (now : ℤ) :
    Resp (List Reading × List SensorStats) :=
  match st with
  | .error e => .storeError e
  | .ok docs => .ok (api_summary docs now)

/-! ### Claims about request handling and error propagation -/

/-- C4: a request to the Windowed Series Reader whose sensor parameter
is missing is answered with the validation error immediately, and the
store is not consulted before (or after) that error is returned. -/
theorem timeseries_missing_sensor (req : TsRequest) (st : Except String (List Reading))
    (now : ℤ) (h : req.sensor = none) :
    api_timeseries req st now =
      (.validationError "Missing required parameter: sensor", false) := by
  unfold api_timeseries
  rw [h]

theorem timeseries_missing_sensor_witness :
    ({ hours := some "24" } : TsRequest).sensor = none ∧
    api_timeseries { hours := some "24" } (.ok [⟨"t", 1, none, 0, none⟩]) 0 =
      (.validationError "Missing required parameter: sensor", false) :=
  ⟨rfl, timeseries_missing_sensor _ _ _ rfl⟩

/-- C5 counterexample: the user-visible response to a store failure is
not a generic message independent of the internal exception: two store
failures with different internal exception texts produce two different
responses, so the exception detail is observable by the end user. -/
theorem store_error_not_generic_counterexample :
    api_sensors_handler (.error "ServerSelectionTimeoutError: db-internal:27017 timed out") ≠
      api_sensors_handler (.error "OperationFailure: authentication failed") := by decide

/-- C5 amended: in each of the three core query operations, a store
failure is answered with the caught exception's own message string
(str(e)) verbatim, not with a fixed generic message. -/
theorem store_error_message_propagated (e : String) (now : ℤ) (req : TsRequest) (s : String)
    (h1 : req.sensor = some s) (h2 : s ≠ "") (h3 : (parsedHours req).isSome)
    (h4 : (parsedLimit req).isSome) :
    api_sensors_handler (.error e) = .storeError e ∧
    api_summary_handler (.error e) now = .storeError e ∧
    api_timeseries req (.error e) now = (.storeError e, true) := by
  refine ⟨rfl, rfl, ?_⟩
  obtain ⟨hours, hh⟩ := Option.isSome_iff_exists.mp h3
  obtain ⟨lim, hl⟩ := Option.isSome_iff_exists.mp h4
  unfold api_timeseries
  rw [h1]
  simp only [if_neg h2, hh, hl]

theorem store_error_message_propagated_witness :
    ({ sensor := some "soil_moisture" } : TsRequest).sensor = some "soil_moisture" ∧
    api_sensors_handler (.error "boom") = .storeError "boom" ∧
    api_summary_handler (.error "boom") 7 = .storeError "boom" ∧
    api_timeseries { sensor := some "soil_moisture" } (.error "boom") 7 =
      (.storeError "boom", true) := by
  refine ⟨rfl, ?_⟩
  have h := store_error_message_propagated "boom" 7 { sensor := some "soil_moisture" }
    "soil_moisture" rfl (by decide) (by decide) (by decide)
  exact ⟨h.1, h.2.1, h.2.2⟩

lemma eq_of_perm_of_sorted_summary : ∀ {L1 L2 : List Reading}, L1.Perm L2 →
    List.Pairwise summaryLe L1 → List.Pairwise summaryLe L2 →
    (∀ a ∈ L1, ∀ b ∈ L1, summaryKey a = summaryKey b → a = b) → L1 = L2 := by
  intro L1
  induction L1 with
  | nil =>
    intro L2 hp _ _ _
    exact (hp.symm.eq_nil).symm
  | cons a t ih =>
    intro L2 hp h1 h2 hinj
    cases L2 with
    | nil => exact absurd hp.eq_nil (by simp)
    | cons b t2 =>
      rw [List.pairwise_cons] at h1 h2
      have hba : b ∈ a :: t := hp.mem_iff.mpr (List.mem_cons_self b t2)
      have hab : a ∈ b :: t2 := hp.mem_iff.mp (List.mem_cons_self a t)
      have hle1 : summaryLe a b := by
        rcases List.mem_cons.mp hba with h | h
        · rw [h]
          exact le_refl _
        · exact h1.1 b h
      have hle2 : summaryLe b a := by
        rcases List.mem_cons.mp hab with h | h
        · rw [h]
          exact le_refl _
        · exact h2.1 a h
      have hkey : summaryKey a = summaryKey b := le_antisymm hle1 hle2
      have heq : a = b := hinj a (List.mem_cons_self a t) b hba hkey
      subst heq
      have htails : t.Perm t2 := hp.cons_inv
      have : t = t2 := ih htails h1.2 h2.2
        fun x hx y hy => hinj x (List.mem_cons_of_mem a hx) y (List.mem_cons_of_mem a hy)
      rw [this]

/-- C6 counterexample to the claim as stated: two readings that agree on
sensor, location and timestamp (differing in value) tie on the whole
sort key, so both presented orders are cursors the store's contract
allows for the same fixed store state, yet they make the latest-per-group
view return different entries — the tie-break is left to the store's
unspecified iteration order, not determined by the store state. -/
theorem read_tiebreak_counterexample :
    ValidSummaryCursor
      [⟨"a", 1, none, 5, some "x"⟩, ⟨"a", 2, none, 5, some "x"⟩]
      [⟨"a", 1, none, 5, some "x"⟩, ⟨"a", 2, none, 5, some "x"⟩] ∧
    ValidSummaryCursor
      [⟨"a", 1, none, 5, some "x"⟩, ⟨"a", 2, none, 5, some "x"⟩]
      [⟨"a", 2, none, 5, some "x"⟩, ⟨"a", 1, none, 5, some "x"⟩] ∧
    latestFromCursor [⟨"a", 1, none, 5, some "x"⟩, ⟨"a", 2, none, 5, some "x"⟩] ≠
      latestFromCursor [⟨"a", 2, none, 5, some "x"⟩, ⟨"a", 1, none, 5, some "x"⟩] :=
  ⟨⟨List.Perm.refl _, by decide⟩, ⟨List.Perm.swap _ _ _, by decide⟩, by decide⟩

/-- C6 amended: the read operations are deterministic only up to the
store's unspecified tie and enumeration orders.  The dimension listing
is fully determined by the store state: sorting erases the unspecified
order in which distinct() enumerates its values.  The latest-per-group
view is determined by the store state — the same for every cursor order
consistent with the pipeline's sort — provided no two distinct readings
of the store agree on sensor, location and timestamp; with such
full-sort-key ties (and likewise for the unspecified $group output
order of the statistics and equal-timestamp orders in the series) a
repeated run may observe a different order and return different
results. -/
theorem read_determinism_up_to_ties (s1 s2 l1 l2 : List String)
    (hs : s1.Perm s2) (hl : l1.Perm l2) (store L1 L2 : List Reading)
    (h1 : ValidSummaryCursor store L1) (h2 : ValidSummaryCursor store L2)
    (hinj : ∀ a ∈ store, ∀ b ∈ store, summaryKey a = summaryKey b → a = b) :
    sensorsFromDistinct s1 l1 = sensorsFromDistinct s2 l2 ∧
    latestFromCursor L1 = latestFromCursor L2 := by
  constructor
  · unfold sensorsFromDistinct
    rw [Prod.mk.injEq]
    constructor
    · exact List.eq_of_perm_of_sorted
        ((List.perm_insertionSort _ _).trans (hs.trans (List.perm_insertionSort _ _).symm))
        (List.sorted_insertionSort _ _) (List.sorted_insertionSort _ _)
    · exact List.eq_of_perm_of_sorted
        ((List.perm_insertionSort _ _).trans
          ((hl.filter _).trans (List.perm_insertionSort _ _).symm))
        (List.sorted_insertionSort _ _) (List.sorted_insertionSort _ _)
  · have hL : L1 = L2 := eq_of_perm_of_sorted_summary (h1.1.trans h2.1.symm) h1.2 h2.2
      fun a ha b hb hk => hinj a (h1.1.mem_iff.mp ha) b (h1.1.mem_iff.mp hb) hk
    rw [hL]

theorem read_determinism_up_to_ties_witness :
    sensorsFromDistinct ["b", "a"] ["z", ""] = sensorsFromDistinct ["a", "b"] ["", "z"] ∧
    latestFromCursor [⟨"a", 1, none, 5, some "x"⟩, ⟨"b", 2, none, 6, some "y"⟩] =
      latestFromCursor [⟨"a", 1, none, 5, some "x"⟩, ⟨"b", 2, none, 6, some "y"⟩] :=
  read_determinism_up_to_ties ["b", "a"] ["a", "b"] ["z", ""] ["", "z"]
    (List.Perm.swap _ _ _) (List.Perm.swap _ _ _)
    [⟨"b", 2, none, 6, some "y"⟩, ⟨"a", 1, none, 5, some "x"⟩]
    [⟨"a", 1, none, 5, some "x"⟩, ⟨"b", 2, none, 6, some "y"⟩]
    [⟨"a", 1, none, 5, some "x"⟩, ⟨"b", 2, none, 6, some "y"⟩]
    ⟨List.Perm.swap _ _ _, by decide⟩ ⟨List.Perm.swap _ _ _, by decide⟩ (by decide)

/-- C9: a Windowed Series Reader request whose location parameter is
present but empty behaves exactly as if the parameter were omitted:
the empty string is falsy, so no location clause is added. -/
theorem timeseries_empty_location (req : TsRequest) (st : Except String (List Reading))
    (now : ℤ) (h : req.location = some "") :
    api_timeseries req st now = api_timeseries { req with location := none } st now := by
  obtain ⟨sf, hf, lf, locf⟩ := req
  simp only at h
  subst h
  rfl

theorem timeseries_empty_location_witness :
    ({ sensor := some "a", location := some "" } : TsRequest).location = some "" ∧
    api_timeseries { sensor := some "a", location := some "" }
        (.ok [⟨"a", 1, none, 5, some "x"⟩]) 0 =
      api_timeseries { sensor := some "a", location := none }
        (.ok [⟨"a", 1, none, 5, some "x"⟩]) 0 :=
  ⟨rfl, timeseries_empty_location { sensor := some "a", location := some "" } _ 0 rfl⟩

/-- C10: when the hours or limit parameter is present but does not parse
as an integer, the int() conversion raises outside the try/except: the
request ends in the unhandled-exception outcome, which is neither the
validation-error nor the store-failure response, and the store is never
consulted; conversely any successfully parsed values, positive or not,
are accepted without any positivity check and the store branch runs. -/
theorem timeseries_int_parse_unhandled (req : TsRequest) (st : Except String (List Reading))
    (now : ℤ) (s : String) (h1 : req.sensor = some s) (h2 : s ≠ "") :
    ((parsedHours req = none ∨ parsedLimit req = none) →
      api_timeseries req st now = (.pyException, false)) ∧
    (∀ hours lim : ℤ, parsedHours req = some hours → parsedLimit req = some lim →
      (api_timeseries req st now).2 = true ∧
      ∀ docs, st = .ok docs →
        api_timeseries req st now =
          (.ok (timeseriesQuery docs s hours lim (reqLocation req) now), true)) := by
  constructor
  · intro h
    unfold api_timeseries
    rw [h1]
    simp only [if_neg h2]
    rcases h with h | h
    · rw [h]
    · cases hph : parsedHours req <;> rw [h]
  · intro hours lim hh hl
    constructor
    · unfold api_timeseries
      rw [h1]
      simp only [if_neg h2, hh, hl]
      cases st <;> rfl
    · intro docs hst
      subst hst
      unfold api_timeseries
      rw [h1]
      simp only [if_neg h2, hh, hl]

theorem timeseries_int_parse_unhandled_witness :
    api_timeseries { sensor := some "soil", hours := some "abc" }
        (.ok [⟨"soil", 1, none, 0, none⟩]) 0 = (.pyException, false) ∧
    (api_timeseries { sensor := some "soil", hours := some "-5", limit := some "0" }
        (.ok [⟨"soil", 1, none, 0, none⟩]) 0).2 = true :=
  ⟨(timeseries_int_parse_unhandled { sensor := some "soil", hours := some "abc" }
      (.ok [⟨"soil", 1, none, 0, none⟩]) 0 "soil" rfl (by decide)).1 (Or.inl (by decide)),
   ((timeseries_int_parse_unhandled { sensor := some "soil", hours := some "-5", limit := some "0" }
      (.ok [⟨"soil", 1, none, 0, none⟩]) 0 "soil" rfl (by decide)).2 (-5) 0 (by decide)
      (by decide)).1⟩

/-! ### Claims about the windowed series query -/

lemma applyLimit_subset (lim : ℤ) (L : List Reading) : applyLimit lim L ⊆ L := by
  unfold applyLimit
  split
  · exact fun a h => h
  · exact List.take_subset _ _

lemma mem_timeseriesQuery_mem_matched {store : List Reading} {sensor : String}
    {hours lim now : ℤ} {loc : Option String} {r : Reading}
    (h : r ∈ timeseriesQuery store sensor hours lim loc now) :
    r ∈ tsMatched store sensor hours loc now := by
  unfold timeseriesQuery at h
  have h1 : r ∈ applyLimit lim (tsDescSorted store sensor hours loc now) :=
    (List.mem_insertionSort _).mp h
  have h2 : r ∈ tsDescSorted store sensor hours loc now := applyLimit_subset _ _ h1
  exact (List.mem_insertionSort _).mp h2

/-- C2: when more than limit readings match the series query, the
endpoint returns exactly limit readings, sorted ascending by timestamp;
the returned readings together with the dropped tail of the descending
cursor are exactly the matching readings, and every dropped reading's
timestamp is at most every kept reading's timestamp (most-recent-first
truncation, re-sorted ascending). -/
theorem timeseries_truncation (store : List Reading) (sensor : String) (hours lim now : ℤ)
    (loc : Option String) (h0 : 0 < lim)
    (hover : lim.natAbs < (tsMatched store sensor hours loc now).length) :
    (timeseriesQuery store sensor hours lim loc now).length = lim.natAbs ∧
    List.Sorted tsAscLe (timeseriesQuery store sensor hours lim loc now) ∧
    (timeseriesQuery store sensor hours lim loc now ++
        (tsDescSorted store sensor hours loc now).drop lim.natAbs).Perm
      (tsMatched store sensor hours loc now) ∧
    ∀ a ∈ timeseriesQuery store sensor hours lim loc now,
      ∀ b ∈ (tsDescSorted store sensor hours loc now).drop lim.natAbs,
        b.timestamp ≤ a.timestamp := by
  have hlim : lim ≠ 0 := ne_of_gt h0
  have hq : timeseriesQuery store sensor hours lim loc now =
      List.insertionSort tsAscLe
        ((tsDescSorted store sensor hours loc now).take lim.natAbs) := by
    unfold timeseriesQuery applyLimit
    rw [if_neg hlim]
  have hDlen : (tsDescSorted store sensor hours loc now).length =
      (tsMatched store sensor hours loc now).length :=
    (List.perm_insertionSort _ _).length_eq
  have hDsorted : List.Sorted tsDescLe (tsDescSorted store sensor hours loc now) :=
    List.sorted_insertionSort _ _
  have hDperm : (tsDescSorted store sensor hours loc now).Perm
      (tsMatched store sensor hours loc now) := List.perm_insertionSort _ _
  have htake : ((tsDescSorted store sensor hours loc now).take lim.natAbs).length =
      lim.natAbs := by
    rw [List.length_take]
    exact min_eq_left (le_of_lt (hDlen ▸ hover))
  have hperm1 : (timeseriesQuery store sensor hours lim loc now).Perm
      ((tsDescSorted store sensor hours loc now).take lim.natAbs) := by
    rw [hq]
    exact List.perm_insertionSort _ _
  refine ⟨?_, ?_, ?_, ?_⟩
  · rw [hperm1.length_eq, htake]
  · rw [hq]
    exact List.sorted_insertionSort _ _
  · refine (hperm1.append_right _).trans ?_
    rw [List.take_append_drop]
    exact hDperm
  · intro a ha b hb
    have ha' : a ∈ (tsDescSorted store sensor hours loc now).take lim.natAbs :=
      hperm1.mem_iff.mp ha
    have hsplit : List.Pairwise tsDescLe
        ((tsDescSorted store sensor hours loc now).take lim.natAbs ++
          (tsDescSorted store sensor hours loc now).drop lim.natAbs) := by
      rw [List.take_append_drop]
      exact hDsorted
    exact (List.pairwise_append.mp hsplit).2.2 a ha' b hb

theorem timeseries_truncation_witness :
    ((0 : ℤ) < 2 ∧
      (Int.natAbs 2) <
        (tsMatched [⟨"s", 1, none, 100, none⟩, ⟨"s", 2, none, 200, none⟩,
          ⟨"s", 3, none, 300, none⟩] "s" 1 none 0).length) ∧
    timeseriesQuery [⟨"s", 1, none, 100, none⟩, ⟨"s", 2, none, 200, none⟩,
        ⟨"s", 3, none, 300, none⟩] "s" 1 2 none 0 =
      [⟨"s", 2, none, 200, none⟩, ⟨"s", 3, none, 300, none⟩] ∧
    (timeseriesQuery [⟨"s", 1, none, 100, none⟩, ⟨"s", 2, none, 200, none⟩,
        ⟨"s", 3, none, 300, none⟩] "s" 1 2 none 0).length = Int.natAbs 2 :=
  ⟨⟨by decide, by decide⟩, by decide,
    (timeseries_truncation [⟨"s", 1, none, 100, none⟩, ⟨"s", 2, none, 200, none⟩,
      ⟨"s", 3, none, 300, none⟩] "s" 1 2 0 none (by decide) (by decide)).1⟩

/-- C7: a series query with a location value returns only readings whose
location is exactly that value, and its candidate set is characterised
by sensor, window and exact location equality; with no location value
the candidate set is characterised by sensor and window alone, with no
condition on location. -/
theorem timeseries_location_filter (store : List Reading) (sensor : String)
    (hours lim now : ℤ) (l : String) :
    (∀ r ∈ timeseriesQuery store sensor hours lim (some l) now, r.location = some l) ∧
    (∀ r, r ∈ tsMatched store sensor hours (some l) now ↔
      r ∈ store ∧ r.sensor = sensor ∧ tsSince now hours ≤ r.timestamp ∧
        r.location = some l) ∧
    (∀ r, r ∈ tsMatched store sensor hours none now ↔
      r ∈ store ∧ r.sensor = sensor ∧ tsSince now hours ≤ r.timestamp) := by
  refine ⟨?_, ?_, ?_⟩
  · intro r hr
    have hm := mem_timeseriesQuery_mem_matched hr
    unfold tsMatched at hm
    have := (List.mem_filter.mp hm).2
    simp only [tsMatch, Bool.and_eq_true, decide_eq_true_eq] at this
    exact this.2
  · intro r
    unfold tsMatched
    simp only [List.mem_filter, tsMatch, Bool.and_eq_true, decide_eq_true_eq]
    tauto
  · intro r
    unfold tsMatched
    simp only [List.mem_filter, tsMatch, Bool.and_eq_true, decide_eq_true_eq]
    tauto

theorem timeseries_location_filter_witness :
    timeseriesQuery [⟨"s", 1, none, 10, some "field-1"⟩, ⟨"s", 2, none, 20, some "field-2"⟩]
        "s" 1 1000 (some "field-1") 0 = [⟨"s", 1, none, 10, some "field-1"⟩] ∧
    (∀ r ∈ timeseriesQuery
        [⟨"s", 1, none, 10, some "field-1"⟩, ⟨"s", 2, none, 20, some "field-2"⟩]
        "s" 1 1000 (some "field-1") 0, r.location = some "field-1") :=
  ⟨by decide,
    (timeseries_location_filter
      [⟨"s", 1, none, 10, some "field-1"⟩, ⟨"s", 2, none, 20, some "field-2"⟩]
      "s" 1 1000 0 "field-1").1⟩

/-! ### Claim about the dimension listing -/

lemma str_data_inj {a b : String} (h : a.data = b.data) : a = b := by
  cases a
  cases b
  cases h
  rfl

lemma sorted_strLt_of_strLe {L : List String} (h1 : List.Pairwise strLe L) (h2 : L.Nodup) :
    List.Pairwise strLt L := by
  induction L with
  | nil => exact List.Pairwise.nil
  | cons a t ih =>
    rw [List.pairwise_cons] at h1 ⊢
    rw [List.nodup_cons] at h2
    refine ⟨fun b hb => ?_, ih h1.2 h2.2⟩
    have hle : strLe a b := h1.1 b hb
    have hne : a ≠ b := fun he => h2.1 (he ▸ hb)
    exact lt_of_le_of_ne hle fun hd => hne (str_data_inj hd)

/-- C8: the dimension lister returns the distinct sensor values and the
distinct non-empty location values, each strictly sorted in ascending
lexical order (strict sortedness also expresses distinctness); on the
empty store both lists are empty (witness). -/
theorem api_sensors_correct (store : List Reading) :
    List.Sorted strLt (api_sensors store).1 ∧
    List.Sorted strLt (api_sensors store).2 ∧
    (∀ x, x ∈ (api_sensors store).1 ↔ ∃ r ∈ store, r.sensor = x) ∧
    (∀ x, x ∈ (api_sensors store).2 ↔ x ≠ "" ∧ ∃ r ∈ store, r.location = some x) := by
  refine ⟨?_, ?_, ?_, ?_⟩
  · exact sorted_strLt_of_strLe (List.sorted_insertionSort _ _)
      ((List.perm_insertionSort _ _).symm.nodup (List.nodup_dedup _))
  · exact sorted_strLt_of_strLe (List.sorted_insertionSort _ _)
      ((List.perm_insertionSort _ _).symm.nodup ((List.nodup_dedup _).filter _))
  · intro x
    simp [api_sensors, List.mem_dedup, List.mem_map]
  · intro x
    simp only [api_sensors, List.mem_insertionSort, List.mem_filter, List.mem_dedup,
      List.mem_filterMap, decide_eq_true_eq]
    tauto

theorem api_sensors_correct_witness :
    api_sensors [] = ([], []) ∧
    api_sensors [⟨"b", 1, none, 0, some "z"⟩, ⟨"a", 1, none, 0, some ""⟩,
        ⟨"a", 2, none, 1, none⟩] = (["a", "b"], ["z"]) ∧
    (∀ x, x ∈ (api_sensors [⟨"b", 1, none, 0, some "z"⟩, ⟨"a", 1, none, 0, some ""⟩,
        ⟨"a", 2, none, 1, none⟩]).1 ↔
      ∃ r ∈ [⟨"b", 1, none, 0, some "z"⟩, ⟨"a", 1, none, 0, some ""⟩,
        ⟨"a", 2, none, 1, none⟩], Reading.sensor r = x) :=
  ⟨by decide, by decide,
    (api_sensors_correct [⟨"b", 1, none, 0, some "z"⟩, ⟨"a", 1, none, 0, some ""⟩,
      ⟨"a", 2, none, 1, none⟩]).2.2.1⟩

/-! ### Claim about the 24-hour statistics -/

lemma foldl_min_le_init (vs : List ℚ) (a : ℚ) : vs.foldl min a ≤ a := by
  induction vs generalizing a with
  | nil => exact le_refl a
  | cons v t ih => exact le_trans (ih (min a v)) (min_le_left a v)

lemma foldl_min_le_mem (vs : List ℚ) (a : ℚ) : ∀ v ∈ vs, vs.foldl min a ≤ v := by
  induction vs generalizing a with
  | nil => intro v hv; cases hv
  | cons w t ih =>
    intro v hv
    rcases List.mem_cons.mp hv with h | h
    · subst h
      exact le_trans (foldl_min_le_init t (min a v)) (min_le_right a v)
    · exact ih (min a w) v h

lemma foldl_min_mem_or (vs : List ℚ) (a : ℚ) : vs.foldl min a = a ∨ vs.foldl min a ∈ vs := by
  induction vs generalizing a with
  | nil => exact Or.inl rfl
  | cons v t ih =>
    rcases ih (min a v) with h | h
    · rcases min_choice a v with hm | hm
      · exact Or.inl (by rw [List.foldl_cons, h, hm])
      · exact Or.inr (by rw [List.foldl_cons, h, hm]; exact List.mem_cons_self v t)
    · exact Or.inr (List.mem_cons_of_mem v h)

lemma foldl_max_init_le (vs : List ℚ) (a : ℚ) : a ≤ vs.foldl max a := by
  induction vs generalizing a with
  | nil => exact le_refl a
  | cons v t ih => exact le_trans (le_max_left a v) (ih (max a v))

lemma foldl_max_mem_le (vs : List ℚ) (a : ℚ) : ∀ v ∈ vs, v ≤ vs.foldl max a := by
  induction vs generalizing a with
  | nil => intro v hv; cases hv
  | cons w t ih =>
    intro v hv
    rcases List.mem_cons.mp hv with h | h
    · subst h
      exact le_trans (le_max_right a v) (foldl_max_init_le t (max a v))
    · exact ih (max a w) v h

lemma foldl_max_mem_or (vs : List ℚ) (a : ℚ) : vs.foldl max a = a ∨ vs.foldl max a ∈ vs := by
  induction vs generalizing a with
  | nil => exact Or.inl rfl
  | cons v t ih =>
    rcases ih (max a v) with h | h
    · rcases max_choice a v with hm | hm
      · exact Or.inl (by rw [List.foldl_cons, h, hm])
      · exact Or.inr (by rw [List.foldl_cons, h, hm]; exact List.mem_cons_self v t)
    · exact Or.inr (List.mem_cons_of_mem v h)

lemma listMin_le {vs : List ℚ} {v : ℚ} (h : v ∈ vs) : listMin vs ≤ v := by
  cases vs with
  | nil => cases h
  | cons w t =>
    rcases List.mem_cons.mp h with h' | h'
    · subst h'
      exact foldl_min_le_init t v
    · exact foldl_min_le_mem t w v h'

lemma le_listMax {vs : List ℚ} {v : ℚ} (h : v ∈ vs) : v ≤ listMax vs := by
  cases vs with
  | nil => cases h
  | cons w t =>
    rcases List.mem_cons.mp h with h' | h'
    · subst h'
      exact foldl_max_init_le t v
    · exact foldl_max_mem_le t w v h'

lemma listMin_mem {vs : List ℚ} (h : vs ≠ []) : listMin vs ∈ vs := by
  cases vs with
  | nil => exact absurd rfl h
  | cons w t =>
    rcases foldl_min_mem_or t w with h' | h'
    · rw [listMin, h']
      exact List.mem_cons_self w t
    · exact List.mem_cons_of_mem w h'

lemma listMax_mem {vs : List ℚ} (h : vs ≠ []) : listMax vs ∈ vs := by
  cases vs with
  | nil => exact absurd rfl h
  | cons w t =>
    rcases foldl_max_mem_or t w with h' | h'
    · rw [listMax, h']
      exact List.mem_cons_self w t
    · exact List.mem_cons_of_mem w h'

/-- The value list a stats row aggregates over, rewritten as one filter
over the whole store. -/
lemma stats_vals_eq (store : List Reading) (now : ℤ) (s : String) :
    ((store.filter (inWindow now)).filter (fun r => decide (r.sensor = s))).map
        Reading.value =
      (store.filter (fun r => decide (r.sensor = s) && inWindow now r)).map
        Reading.value := by
  rw [List.filter_filter]

lemma mem_stats_vals (store : List Reading) (now : ℤ) (s : String) (v : ℚ) :
    v ∈ ((store.filter (inWindow now)).filter (fun r => decide (r.sensor = s))).map
        Reading.value ↔
      ∃ r ∈ store, r.sensor = s ∧ inWindow now r = true ∧ r.value = v := by
  simp only [List.mem_map, List.mem_filter, decide_eq_true_eq]
  constructor
  · rintro ⟨r, ⟨⟨hr, hw⟩, hs⟩, hv⟩
    exact ⟨r, hr, hs, hw, hv⟩
  · rintro ⟨r, hr, hs, hw, hv⟩
    exact ⟨r, ⟨⟨hr, hw⟩, hs⟩, hv⟩

/-- C3: the 24-hour statistics restrict to readings with timestamp at
least now minus 24 hours, group by sensor alone, and report count, min,
max and arithmetic mean of the values; a sensor appears in the output
exactly when it has at least one reading in the window, so sensors with
none are omitted. -/
theorem stats_24h_correct (store : List Reading) (now : ℤ) :
    (∀ s : String, (∃ st ∈ stats_24h store now, st.sensor = s) ↔
      ∃ r ∈ store, r.sensor = s ∧ inWindow now r = true) ∧
    (∀ st ∈ stats_24h store now,
      st.count = store.countP (fun r => decide (r.sensor = st.sensor) && inWindow now r) ∧
      0 < st.count ∧
      st.avg = ((store.filter (fun r => decide (r.sensor = st.sensor) && inWindow now r)).map
          Reading.value).sum / (st.count : ℚ) ∧
      (∀ r ∈ store, r.sensor = st.sensor → inWindow now r = true →
        st.min ≤ r.value ∧ r.value ≤ st.max) ∧
      (∃ r ∈ store, r.sensor = st.sensor ∧ inWindow now r = true ∧ r.value = st.min) ∧
      (∃ r ∈ store, r.sensor = st.sensor ∧ inWindow now r = true ∧ r.value = st.max)) := by
  constructor
  · intro s
    constructor
    · rintro ⟨st, hst, hsens⟩
      obtain ⟨s', hs', rfl⟩ := List.mem_map.mp hst
      have hs'' : s' = s := hsens
      subst hs''
      have : s' ∈ (store.filter (inWindow now)).map Reading.sensor :=
        List.mem_dedup.mp hs'
      obtain ⟨r, hr, hrs⟩ := List.mem_map.mp this
      have := List.mem_filter.mp hr
      exact ⟨r, this.1, hrs, this.2⟩
    · rintro ⟨r, hr, hs, hw⟩
      have hrm : r ∈ store.filter (inWindow now) := List.mem_filter.mpr ⟨hr, hw⟩
      have : s ∈ ((store.filter (inWindow now)).map Reading.sensor).dedup :=
        List.mem_dedup.mpr (List.mem_map.mpr ⟨r, hrm, hs⟩)
      exact ⟨sensorStatsFor (store.filter (inWindow now)) s,
        List.mem_map_of_mem _ this, rfl⟩
  · intro st hst
    obtain ⟨s, hs, rfl⟩ := List.mem_map.mp hst
    have hvne : ((store.filter (inWindow now)).filter
        (fun r => decide (r.sensor = s))).map Reading.value ≠ [] := by
      have : s ∈ (store.filter (inWindow now)).map Reading.sensor := List.mem_dedup.mp hs
      obtain ⟨r, hr, hrs⟩ := List.mem_map.mp this
      have : r.value ∈ ((store.filter (inWindow now)).filter
          (fun r => decide (r.sensor = s))).map Reading.value :=
        List.mem_map_of_mem _ (List.mem_filter.mpr ⟨hr, by simpa using hrs⟩)
      exact List.ne_nil_of_mem this
    have hsens : (sensorStatsFor (store.filter (inWindow now)) s).sensor = s := rfl
    have hcount : (sensorStatsFor (store.filter (inWindow now)) s).count =
        (((store.filter (inWindow now)).filter (fun r => decide (r.sensor = s))).map
          Reading.value).length := rfl
    refine ⟨?_, ?_, ?_, ?_, ?_, ?_⟩
    · rw [hsens, hcount, List.length_map, List.countP_eq_length_filter,
        ← List.filter_filter]
    · rw [hcount]
      exact List.length_pos.mpr hvne
    · rw [hsens, ← stats_vals_eq store now s]
      rfl
    · intro r hr hsr hw
      rw [hsens] at hsr
      have hv : r.value ∈ ((store.filter (inWindow now)).filter
          (fun r => decide (r.sensor = s))).map Reading.value :=
        (mem_stats_vals store now s r.value).mpr ⟨r, hr, hsr, hw, rfl⟩
      exact ⟨listMin_le hv, le_listMax hv⟩
    · have := listMin_mem hvne
      obtain ⟨r, hr, hs', hw, hv⟩ := (mem_stats_vals store now s _).mp this
      exact ⟨r, hr, by rw [hsens]; exact hs', hw, hv⟩
    · have := listMax_mem hvne
      obtain ⟨r, hr, hs', hw, hv⟩ := (mem_stats_vals store now s _).mp this
      exact ⟨r, hr, by rw [hsens]; exact hs', hw, hv⟩

theorem stats_24h_correct_witness :
    (stats_24h [⟨"X", 5, none, -3600, none⟩, ⟨"X", 7, none, -90000, none⟩] 0).map
        SensorStats.count = [1] ∧
    (stats_24h [⟨"X", 5, none, -3600, none⟩, ⟨"X", 7, none, -90000, none⟩] 0).map
        SensorStats.sensor = ["X"] ∧
    (∀ st ∈ stats_24h [⟨"X", 5, none, -3600, none⟩, ⟨"X", 7, none, -90000, none⟩] 0,
      st.count = ([⟨"X", 5, none, -3600, none⟩, ⟨"X", 7, none, -90000, none⟩] :
          List Reading).countP
        (fun r => decide (r.sensor = st.sensor) && inWindow 0 r) ∧ 0 < st.count) :=
  ⟨by decide, by decide, fun st hst =>
    ⟨((stats_24h_correct [⟨"X", 5, none, -3600, none⟩, ⟨"X", 7, none, -90000, none⟩]
        0).2 st hst).1,
     ((stats_24h_correct [⟨"X", 5, none, -3600, none⟩, ⟨"X", 7, none, -90000, none⟩]
        0).2 st hst).2.1⟩⟩

/-! ### Claim about the latest-per-group view -/

lemma find?_rel_of_pairwise {α : Type} {R : α → α → Prop} {p : α → Bool} {L : List α}
    {e : α} (hp : List.Pairwise R L) (h : L.find? p = some e) :
    ∀ x ∈ L, p x = true → x = e ∨ R e x := by
  induction L with
  | nil => cases h
  | cons a t ih =>
    rw [List.pairwise_cons] at hp
    intro x hx hpx
    by_cases hpa : p a = true
    · rw [List.find?_cons_of_pos _ hpa] at h
      have hae : a = e := Option.some.inj h
      rcases List.mem_cons.mp hx with h' | h'
      · exact Or.inl (h'.trans hae)
      · exact Or.inr (hae ▸ hp.1 x h')
    · rw [List.find?_cons_of_neg _ (by simpa using hpa)] at h
      rcases List.mem_cons.mp hx with h' | h'
      · exact absurd (h' ▸ hpx) hpa
      · exact ih hp.2 h x h' hpx

lemma countP_filterMap_zero {K A : Type} (keys : List K) (f : K → Option A) (p : A → Bool)
    (h : ∀ k ∈ keys, ∀ a, f k = some a → p a = false) :
    (keys.filterMap f).countP p = 0 := by
  induction keys with
  | nil => rfl
  | cons k t ih =>
    rw [List.filterMap_cons]
    cases hf : f k with
    | none => exact ih fun k' hk' => h k' (List.mem_cons_of_mem _ hk')
    | some a =>
      rw [List.countP_cons, ih fun k' hk' => h k' (List.mem_cons_of_mem _ hk'),
        h k (List.mem_cons_self _ _) a hf]
      rfl

lemma countP_filterMap_one {K A : Type} [DecidableEq K] (keys : List K) (hnd : keys.Nodup)
    (f : K → Option A) (g : A → K) (hf : ∀ k a, f k = some a → g a = k)
    (k : K) (hk : k ∈ keys) (hs : (f k).isSome) :
    (keys.filterMap f).countP (fun a => decide (g a = k)) = 1 := by
  induction keys with
  | nil => cases hk
  | cons k0 t ih =>
    rw [List.nodup_cons] at hnd
    rw [List.filterMap_cons]
    by_cases hkk : k = k0
    · subst hkk
      obtain ⟨a, ha⟩ := Option.isSome_iff_exists.mp hs
      rw [ha, List.countP_cons]
      have hzero : (t.filterMap f).countP (fun a => decide (g a = k)) = 0 := by
        refine countP_filterMap_zero t f _ ?_
        intro k' hk' b hb
        rw [hf k' b hb]
        exact decide_eq_false fun he => hnd.1 (he ▸ hk')
      rw [hzero, hf k a ha]
      simp
    · have hkt : k ∈ t := (List.mem_cons.mp hk).resolve_left hkk
      cases hfk0 : f k0 with
      | none => exact ih hnd.2 hkt
      | some a =>
        rw [List.countP_cons, ih hnd.2 hkt, hf k0 a hfk0]
        rw [decide_eq_false fun he => hkk he.symm]
        rfl

lemma groupKey_inj_of_no_sentinel {a b : Reading}
    (ha : a.location ≠ some "__none__") (hb : b.location ≠ some "__none__")
    (h : groupKey a = groupKey b) : a.sensor = b.sensor ∧ a.location = b.location := by
  unfold groupKey at h
  rw [Prod.mk.injEq] at h
  refine ⟨h.1, ?_⟩
  have h2 := h.2
  cases hla : a.location with
  | none =>
    cases hlb : b.location with
    | none => rfl
    | some y =>
      rw [hla, hlb] at h2
      simp only [Option.getD_none, Option.getD_some] at h2
      exact absurd (hlb.trans (congrArg some h2.symm)) hb
  | some x =>
    cases hlb : b.location with
    | none =>
      rw [hla, hlb] at h2
      simp only [Option.getD_none, Option.getD_some] at h2
      exact absurd (hla.trans (congrArg some h2)) ha
    | some y =>
      rw [hla, hlb] at h2
      simp only [Option.getD_some] at h2
      rw [h2]

lemma summaryLe_timestamp {a b : Reading} (h : summaryLe a b) (hs : a.sensor = b.sensor)
    (hl : a.location = b.location) : b.timestamp ≤ a.timestamp := by
  unfold summaryLe summaryKey at h
  rcases (Prod.Lex.le_iff _ _).mp h with h1 | ⟨_, h2⟩
  · simp only at h1
    rw [hs] at h1
    exact absurd h1 (lt_irrefl _)
  · rcases (Prod.Lex.le_iff _ _).mp h2 with h3 | ⟨_, h4⟩
    · simp only at h3
      rw [hl] at h3
      exact absurd h3 (lt_irrefl _)
    · simp only at h4
      exact neg_le_neg_iff.mp h4

/-- C1 counterexample to the claim as stated: with a missing-location
reading at timestamp 5 and a reading whose actual location is literally
the sentinel string "__none__" at timestamp 10, both fall into the group
("a", "__none__"), yet the view returns the timestamp-5 reading, which
is not the maximum of that group: the sort places the missing location
before the sentinel string, and $first takes the first document of the
group in sort order. -/
theorem latestPerGroup_claim_counterexample :
    ∃ e ∈ latestPerGroup [⟨"a", 1, none, 5, none⟩, ⟨"a", 2, none, 10, some "__none__"⟩],
      groupKey e = ("a", "__none__") ∧
      ∃ r ∈ ([⟨"a", 1, none, 5, none⟩, ⟨"a", 2, none, 10, some "__none__"⟩] : List Reading),
        groupKey r = ("a", "__none__") ∧ e.timestamp < r.timestamp := by decide

/-- C1 amended: for every (sensor, location) group key occurring in the
store (missing location folded to the sentinel "__none__"), the
latest-per-group view contains exactly one entry with that key, and —
provided no stored reading's actual location is literally the sentinel
string "__none__" — that entry is a stored reading of the group whose
timestamp is maximal in the group. -/
theorem latestPerGroup_correct (store : List Reading) (k : String × String)
    (hk : ∃ r ∈ store, groupKey r = k)
    (hnc : ∀ r ∈ store, r.location ≠ some "__none__") :
    (latestPerGroup store).countP (fun e => decide (groupKey e = k)) = 1 ∧
    ∀ e ∈ latestPerGroup store, groupKey e = k →
      e ∈ store ∧ ∀ r ∈ store, groupKey r = k → r.timestamp ≤ e.timestamp := by
  have hperm : (sortedForLatest store).Perm store := List.perm_insertionSort _ _
  have hsorted : List.Pairwise summaryLe (sortedForLatest store) :=
    List.sorted_insertionSort _ _
  obtain ⟨r0, hr0, hk0⟩ := hk
  have hr0L : r0 ∈ sortedForLatest store := hperm.mem_iff.mpr hr0
  have hkmem : k ∈ ((sortedForLatest store).map groupKey).dedup :=
    List.mem_dedup.mpr (List.mem_map.mpr ⟨r0, hr0L, hk0⟩)
  constructor
  · refine countP_filterMap_one _ (List.nodup_dedup _) _ groupKey ?_ k hkmem ?_
    · intro k' a ha
      have h1 := List.find?_some ha
      simp only [decide_eq_true_eq] at h1
      exact h1
    · rw [List.find?_isSome]
      exact ⟨r0, hr0L, decide_eq_true hk0⟩
  · intro e he hek
    obtain ⟨k', hk', hfind⟩ := List.mem_filterMap.mp he
    have hge := List.find?_some hfind
    simp only [decide_eq_true_eq] at hge
    have hkk : k' = k := by rw [← hge, hek]
    subst hkk
    have heL : e ∈ sortedForLatest store := List.mem_of_find?_eq_some hfind
    have hestore : e ∈ store := hperm.mem_iff.mp heL
    refine ⟨hestore, ?_⟩
    intro r hr hrk
    have hrL : r ∈ sortedForLatest store := hperm.mem_iff.mpr hr
    rcases find?_rel_of_pairwise hsorted hfind r hrL (decide_eq_true hrk) with heq | hle
    · rw [heq]
    · have hinj := groupKey_inj_of_no_sentinel (hnc e hestore) (hnc r hr)
        (hek.trans hrk.symm)
      exact summaryLe_timestamp hle hinj.1 hinj.2

theorem latestPerGroup_correct_witness :
    ((∃ r ∈ ([⟨"a", 1, none, 5, some "f"⟩, ⟨"a", 2, none, 9, some "f"⟩] : List Reading),
        groupKey r = ("a", "f")) ∧
      ∀ r ∈ ([⟨"a", 1, none, 5, some "f"⟩, ⟨"a", 2, none, 9, some "f"⟩] : List Reading),
        r.location ≠ some "__none__") ∧
    ((latestPerGroup [⟨"a", 1, none, 5, some "f"⟩, ⟨"a", 2, none, 9, some "f"⟩]).countP
        (fun e => decide (groupKey e = ("a", "f"))) = 1 ∧
      ∀ e ∈ latestPerGroup [⟨"a", 1, none, 5, some "f"⟩, ⟨"a", 2, none, 9, some "f"⟩],
        groupKey e = ("a", "f") →
          e ∈ ([⟨"a", 1, none, 5, some "f"⟩, ⟨"a", 2, none, 9, some "f"⟩] : List Reading) ∧
          ∀ r ∈ ([⟨"a", 1, none, 5, some "f"⟩, ⟨"a", 2, none, 9, some "f"⟩] : List Reading),
            groupKey r = ("a", "f") → r.timestamp ≤ e.timestamp) :=
  ⟨⟨by decide, by decide⟩,
    latestPerGroup_correct [⟨"a", 1, none, 5, some "f"⟩, ⟨"a", 2, none, 9, some "f"⟩]
      ("a", "f") (by decide) (by decide)⟩

end RealtimeFarming
